import Mathlib

/-!
Shallow embedding of the article ingestion and dual-rendering pipeline
(`src/main.py`) and proofs about the spec's claims.

The embedding covers:
* the bilingual content model (`ContentBlock`) built by `scrape_and_get_content`;
* the translation wrapper `translate_to_gujarati` (the translator capability is
  a parameter `tr : String → Option String`, `none` modelling a raised exception);
* the remote incremental builder `append_to_google_doc`, whose batched request
  list and running cursor are modelled by `buildBlocksIdx` / `appendRequests`;
* the dedup step `check_and_insert_urls` (MongoDB collection modelled as the
  list of seen URLs, connectivity as a boolean);
* the delivery retry loop `send_docx_to_telegram` (delivery outcomes per
  attempt supplied by an oracle).

Python `len` counts code points, which coincides with `String.length` on the
Lean side; all index arithmetic is over `Nat`.
-/

namespace Pipeline

/-- One entry of the `content_list` built by `scrape_and_get_content`
(lines 135-193 of `src/main.py`): the dicts
`{'type': 'heading', 'text': ..., 'image': ...}`,
`{'type': 'paragraph'|'heading_2'|'heading_4'|'bullet_list', 'text': ...}` and
`{'type': 'numbered_list', 'text': ..., 'number': ...}`. -/
inductive ContentBlock where
  | heading (text : String) (image : Option String)
  | paragraph (text : String)
  | heading_2 (text : String)
  | heading_4 (text : String)
  | bullet_list (text : String)
  | numbered_list (text : String) (number : Nat)
deriving DecidableEq, Repr

/-- The `textStyle` payload of an `updateTextStyle` request: bold/italic flags,
font size in points, and the rgb colour components in hundredths (the Python
floats `0.4`, `0.13`, ... scaled by 100). -/
structure TextStyle where
  bold : Bool
  italic : Bool
  size : Nat
  r100 : Nat
  g100 : Nat
  b100 : Nat
deriving DecidableEq, Repr

/-- Title style of lines 326-336: bold, rgb (0, 0.4, 0.8), 18pt. -/
def titleTS : TextStyle := ⟨true, false, 18, 0, 40, 80⟩

/-- Heading style of lines 356-366: bold, rgb (0.2, 0.2, 0.2), 14pt. -/
def headingTS : TextStyle := ⟨true, false, 14, 20, 20, 20⟩

/-- Paragraph style of lines 375-384: rgb (0.13, 0.13, 0.13), 11pt. -/
def paragraphTS : TextStyle := ⟨false, false, 11, 13, 13, 13⟩

/-- Level-2 heading style of lines 393-404: bold italic, rgb (0, 0.6, 0.3), 12pt. -/
def heading2TS : TextStyle := ⟨true, true, 12, 0, 60, 30⟩

/-- Level-4 heading style of lines 413-423: bold, rgb (0.4, 0.4, 0.4), 11pt. -/
def heading4TS : TextStyle := ⟨true, false, 11, 40, 40, 40⟩

/-- List item style of lines 438-447 and 462-471: rgb (0.26, 0.26, 0.26), 11pt. -/
def listTS : TextStyle := ⟨false, false, 11, 26, 26, 26⟩

/-- One request of the batched `requests` list sent to the Google Docs API
by `append_to_google_doc`. -/
inductive DocRequest where
  | insertText (location : Nat) (text : String)
  | updateTextStyle (startIndex endIndex : Nat) (style : TextStyle)
  | createParagraphBullets (startIndex endIndex : Nat) (preset : String)
deriving DecidableEq, Repr

/-- The text actually inserted into the remote document for one content block
(the `text` field of its `insertText` request, prefix and trailing newlines
included). -/
def insertedText : ContentBlock → String
  | ContentBlock.heading t _ => t ++ "\n"
  | ContentBlock.paragraph t => t ++ "\n\n"
  | ContentBlock.heading_2 t => t ++ "\n"
  | ContentBlock.heading_4 t => t ++ "\n"
  | ContentBlock.bullet_list t => "• " ++ t ++ "\n"
  | ContentBlock.numbered_list t n => toString n ++ ". " ++ t ++ "\n"

/-- The amount the running `index` is advanced by for one content block,
written exactly as the Python increments compute it
(`len(content['text']) + 1`, `+ 2` for paragraphs, prefixed text for lists). -/
def blockStep : ContentBlock → Nat
  | ContentBlock.heading t _ => t.length + 1
  | ContentBlock.paragraph t => t.length + 2
  | ContentBlock.heading_2 t => t.length + 1
  | ContentBlock.heading_4 t => t.length + 1
  | ContentBlock.bullet_list t => ("• " ++ t).length + 1
  | ContentBlock.numbered_list t n => (toString n ++ ". " ++ t).length + 1

/-- The requests issued for one content block at cursor position `index`
(lines 348-472 of `src/main.py`). -/
def blockRequests (index : Nat) : ContentBlock → List DocRequest
  | ContentBlock.heading t _ =>
    [DocRequest.insertText index (t ++ "\n"),
     DocRequest.updateTextStyle index (index + t.length + 1) headingTS]
  | ContentBlock.paragraph t =>
    [DocRequest.insertText index (t ++ "\n\n"),
     DocRequest.updateTextStyle index (index + t.length + 2) paragraphTS]
  | ContentBlock.heading_2 t =>
    [DocRequest.insertText index (t ++ "\n"),
     DocRequest.updateTextStyle index (index + t.length + 1) heading2TS]
  | ContentBlock.heading_4 t =>
    [DocRequest.insertText index (t ++ "\n"),
     DocRequest.updateTextStyle index (index + t.length + 1) heading4TS]
  | ContentBlock.bullet_list t =>
    [DocRequest.insertText index ("• " ++ t ++ "\n"),
     DocRequest.createParagraphBullets index (index + ("• " ++ t).length + 1)
       "BULLET_DISC_CIRCLE_SQUARE",
     DocRequest.updateTextStyle index (index + ("• " ++ t).length + 1) listTS]
  | ContentBlock.numbered_list t n =>
    [DocRequest.insertText index (toString n ++ ". " ++ t ++ "\n"),
     DocRequest.createParagraphBullets index
       (index + (toString n ++ ". " ++ t).length + 1) "NUMBERED_DECIMAL_ALPHA_ROMAN",
     DocRequest.updateTextStyle index
       (index + (toString n ++ ". " ++ t).length + 1) listTS]

/-- The `for content in content_list` loop of lines 348-472: accumulates the
requests and threads the running `index`, returning the final index as well. -/
def buildBlocksIdx (index : Nat) : List ContentBlock → List DocRequest × Nat
  | [] => ([], index)
  | b :: rest =>
    let r := buildBlocksIdx (index + blockStep b) rest
    (blockRequests index b ++ r.1, r.2)

/-- Total index advance over a block list. -/
def stepsSum : List ContentBlock → Nat
  | [] => 0
  | b :: rest => blockStep b + stepsSum rest

/-- Concatenation of the texts actually inserted for a block list. -/
def concatInserted : List ContentBlock → String
  | [] => ""
  | b :: rest => insertedText b ++ concatInserted rest

/-- The `[startIndex, endIndex)` range carried by a request, if any. -/
def reqRange : DocRequest → Option (Nat × Nat)
  | DocRequest.insertText _ _ => none
  | DocRequest.updateTextStyle s e _ => some (s, e)
  | DocRequest.createParagraphBullets s e _ => some (s, e)

/-- The fifty-dash separator line `'-' * 50`. -/
def sepLine : String := String.mk (List.replicate 50 '-')

/-- The in-document title text `f"Current Affairs - {date}"`, with the
formatted day string as a parameter. -/
def titleLine (day : String) : String := "Current Affairs - " ++ day

/-- The full batched request list built by `append_to_google_doc`
(lines 317-481): title insert and style, separator insert, the per-block
requests, and the trailing separator insert, with the running index threaded
exactly as in the source (`index = 1`, `+= len(title) + 1`, `+= 51`, per-block
steps, final `+= 53`). -/
def appendRequests (day : String) (content_list : List ContentBlock) : List DocRequest :=
  [DocRequest.insertText 1 (titleLine day ++ "\n"),
   DocRequest.updateTextStyle 1 ((titleLine day).length + 1) titleTS,
   DocRequest.insertText (1 + ((titleLine day).length + 1)) (sepLine ++ "\n")] ++
  (buildBlocksIdx (1 + ((titleLine day).length + 1) + 51) content_list).1 ++
  [DocRequest.insertText
     (buildBlocksIdx (1 + ((titleLine day).length + 1) + 51) content_list).2
     ("\n" ++ sepLine ++ "\n\n")]

/-- A call against the Google Docs service issued by `append_to_google_doc`. -/
inductive ApiCall where
  | createDoc (title : String)
  | batchUpdate (requests : List DocRequest)
deriving DecidableEq, Repr

/-- The sequence of Docs API calls `append_to_google_doc` issues for one
category (lines 309-487): it creates the document first — unconditionally —
and then submits the batched requests when the request list is non-empty.
`monthYear` and `day` are the two `datetime.now().strftime` results. -/
def append_to_google_doc (monthYear day category : String)
    (content_list : List ContentBlock) : List ApiCall :=
  let reqs := appendRequests day content_list
  ApiCall.createDoc (monthYear ++ " - " ++ category) ::
    (if reqs = [] then [] else [ApiCall.batchUpdate reqs])

/-- Number of `insertText` requests in a request list. -/
def countInserts : List DocRequest → Nat
  | [] => 0
  | DocRequest.insertText _ _ :: rest => countInserts rest + 1
  | _ :: rest => countInserts rest

/-- Number of `updateTextStyle` requests in a request list. -/
def countStyleOps : List DocRequest → Nat
  | [] => 0
  | DocRequest.updateTextStyle _ _ _ :: rest => countStyleOps rest + 1
  | _ :: rest => countStyleOps rest

/-- Number of `createParagraphBullets` requests in a request list. -/
def countBulletOps : List DocRequest → Nat
  | [] => 0
  | DocRequest.createParagraphBullets _ _ _ :: rest => countBulletOps rest + 1
  | _ :: rest => countBulletOps rest

/-- The translation wrapper of lines 83-89: call the translator; on any
exception (`tr text = none`) return the original text unchanged. -/
def translate_to_gujarati (tr : String → Option String) (text : String) : String :=
  match tr text with
  | some t => t
  | none => text

/-- The characters of the fixed pattern prefix of `r'Category: (.+)'`. -/
def categoryPat : List Char := "Category: ".data

/-- Scan for the leftmost position where `"Category: "` occurs followed by at
least one non-newline character, and return the greedy capture of `(.+)`
(the run of non-newline characters after the prefix). Models
`re.search(r'Category: (.+)', text)` at lines 159 and 169. -/
def captureCategoryChars : List Char → Option (List Char)
  | [] => none
  | c :: rest =>
    if categoryPat.isPrefixOf (c :: rest) then
      let line := ((c :: rest).drop categoryPat.length).takeWhile (fun ch => ch ≠ '\n')
      if line.isEmpty then captureCategoryChars rest else some line
    else captureCategoryChars rest

/-- String-level wrapper of `captureCategoryChars`. -/
def categoryCapture (s : String) : Option String :=
  (captureCategoryChars s.data).map String.mk

/-- A direct structural child of the main content container, at the level of
detail the extraction loop (lines 165-193) inspects it: its tag name, its
stripped `get_text()` result, the stripped texts of its `li` descendants
(meaningful for `ul` / `ol` tags), and whether its class list is one of the
two skipped share-widget / navigation class lists of line 166. -/
structure ChildTag where
  name : String
  text : String
  liTexts : List String
  skipClass : Bool
deriving DecidableEq, Repr

/-- One fetched article page, at the level of detail `scrape_and_get_content`
inspects it: whether the `div.inside_post.column.content_width` container was
found, the stripped text of the `h1#list` heading if present, the featured
image `src` if present (lines 128-133), the stripped text of the first
`a[rel=tag]` category link inside a `p.small-font` tag holding a
`b` element with string `Category:` (the HTML category detection of lines
144-151) if present, and the direct children of the container. -/
structure Page where
  hasMainContent : Bool
  headingText : Option String
  imageUrl : Option String
  htmlCategory : Option String
  children : List ChildTag
deriving DecidableEq, Repr

/-- Outcome of `requests.get(url)` for one article URL: a raised
`RequestException` / bad status, or a parsed page. -/
inductive FetchResult where
  | fetchError
  | ok (page : Page)
deriving DecidableEq, Repr

/-- The plain-text category fallback of lines 154-163: scan the direct
children in order, skip empty texts, and return the stripped capture of the
first `Category: (.+)` match. -/
def textCategory : List ChildTag → Option String
  | [] => none
  | t :: rest =>
    if t.text = "" then textCategory rest
    else
      match categoryCapture t.text with
      | some c => some c.trim
      | none => textCategory rest

/-- Expansion of the `li` items of one `ul` tag (lines 181-186): a
translated/original `bullet_list` pair per item. -/
def ulItems (tr : String → Option String) : List String → List ContentBlock
  | [] => []
  | li :: rest =>
    ContentBlock.bullet_list (translate_to_gujarati tr li) ::
      ContentBlock.bullet_list li :: ulItems tr rest

/-- Expansion of the `li` items of one `ol` tag (lines 187-193): a
translated/original `numbered_list` pair per item sharing the running counter,
which increments once per item; returns the final counter as well. -/
def olItems (tr : String → Option String) (counter : Nat) :
    List String → List ContentBlock × Nat
  | [] => ([], counter)
  | li :: rest =>
    let r := olItems tr (counter + 1) rest
    (ContentBlock.numbered_list (translate_to_gujarati tr li) counter ::
       ContentBlock.numbered_list li counter :: r.1, r.2)

/-- The content loop over direct children (lines 165-193): skip share-widget
and navigation class lists, skip empty or `Category:`-matching texts, then
dispatch on the tag name; `numbered_list` items thread the
`numbered_list_counter` started at 1 by the caller. -/
def processTags (tr : String → Option String) :
    List ChildTag → Nat → List ContentBlock
  | [], _ => []
  | t :: rest, counter =>
    if t.skipClass then processTags tr rest counter
    else if t.text = "" then processTags tr rest counter
    else if (categoryCapture t.text).isSome then processTags tr rest counter
    else if t.name = "p" then
      ContentBlock.paragraph (translate_to_gujarati tr t.text) ::
        ContentBlock.paragraph t.text :: processTags tr rest counter
    else if t.name = "h2" then
      ContentBlock.heading_2 (translate_to_gujarati tr t.text) ::
        ContentBlock.heading_2 t.text :: processTags tr rest counter
    else if t.name = "h4" then
      ContentBlock.heading_4 (translate_to_gujarati tr t.text) ::
        ContentBlock.heading_4 t.text :: processTags tr rest counter
    else if t.name = "ul" then
      ulItems tr t.liTexts ++ processTags tr rest counter
    else if t.name = "ol" then
      let r := olItems tr counter t.liTexts
      r.1 ++ processTags tr rest r.2
    else processTags tr rest counter

/-- The extractor (lines 112-201): on a fetch error, a missing main-content
container, or a missing heading, the surrounding `try/except` returns
`([], None)`; otherwise the block list starts with the translated heading
(carrying the featured-image URL) and the original heading, followed by the
content loop's blocks, and the category is the HTML detection result when
present, else the plain-text fallback. -/
def scrape_and_get_content (tr : String → Option String) :
    FetchResult → List ContentBlock × Option String
  | FetchResult.fetchError => ([], none)
  | FetchResult.ok p =>
    if p.hasMainContent = false then ([], none)
    else
      match p.headingText with
      | none => ([], none)
      | some h =>
        (ContentBlock.heading (translate_to_gujarati tr h) p.imageUrl ::
           ContentBlock.heading h none :: processTags tr p.children 1,
         match p.htmlCategory with
         | some c => some c
         | none => textCategory p.children)

/-- The per-URL loop of `main` (lines 556-557): every URL is processed by the
extractor; no URL's outcome interrupts the others. -/
def processUrls (tr : String → Option String) (pages : List FetchResult) :
    List (List ContentBlock × Option String) :=
  pages.map (scrape_and_get_content tr)

/-- `category_contents[category].extend(content_list)` with creation on first
use, over an insertion-ordered association list (Python dicts preserve
insertion order). -/
def addToCat : List (String × List ContentBlock) → String → List ContentBlock →
    List (String × List ContentBlock)
  | [], c, bs => [(c, bs)]
  | (k, v) :: rest, c, bs =>
    if k = c then (k, v ++ bs) :: rest else (k, v) :: addToCat rest c bs

/-- The accumulation of `category_contents` in `main` (lines 556-564): a
URL's blocks are added under its category only when the block list is
non-empty and the category is present and truthy (non-empty string). -/
def gatherCategoriesAux (acc : List (String × List ContentBlock)) :
    List (List ContentBlock × Option String) → List (String × List ContentBlock)
  | [] => acc
  | (blocks, cat) :: rest =>
    if blocks = [] then gatherCategoriesAux acc rest
    else
      match cat with
      | none => gatherCategoriesAux acc rest
      | some c =>
        if c = "" then gatherCategoriesAux acc rest
        else gatherCategoriesAux (addToCat acc c blocks) rest

/-- `category_contents` as built by `main` from the per-URL extraction
results. -/
def gatherCategories (rs : List (List ContentBlock × Option String)) :
    List (String × List ContentBlock) :=
  gatherCategoriesAux [] rs

/-- `pat` occurs as a contiguous substring of `l` (Python's `pat in s`). -/
def hasSubstrChars (l pat : List Char) : Bool :=
  match l with
  | [] => pat.isEmpty
  | _ :: rest => pat.isPrefixOf l || hasSubstrChars rest pat

/-- Python's `'pat' in s` on strings. -/
def hasSubstr (s pat : String) : Bool := hasSubstrChars s.data pat.data

/-- The substring filtered out of the URL stream at line 494. -/
def quizMarker : String := "daily-current-affairs-quiz"

/-- The dedup step of lines 491-500. The MongoDB collection is modelled as
the list `seen` of URLs already stored; `conn` models connectivity to the
ledger — when it is `false`, the first `collection.find_one` call raises
(`Except.error ()`), exactly as the unguarded Python call would. Quiz URLs
are skipped before any ledger access. On success the result is the list of
new URLs in input order together with the final ledger contents. -/
def check_and_insert_urls (conn : Bool) :
    List String → List String → Except Unit (List String × List String)
  | seen, [] => Except.ok ([], seen)
  | seen, url :: rest =>
    if hasSubstr url quizMarker then check_and_insert_urls conn seen rest
    else if conn = false then Except.error ()
    else if url ∈ seen then check_and_insert_urls conn seen rest
    else
      match check_and_insert_urls conn (seen ++ [url]) rest with
      | Except.error e => Except.error e
      | Except.ok (new, seen2) => Except.ok (url :: new, seen2)

/-- Outcome of one `bot.send_document` attempt. -/
inductive DeliveryOutcome where
  | success
  | timedOut
  | otherError
deriving DecidableEq, Repr

/-- How `send_docx_to_telegram` returns to `main`: `sent` — the `break` after
a successful send; `fatalError` — the bare `raise` on a non-timeout exception,
which propagates out (and `main` re-raises, aborting the run); `exhausted` —
the `for`/`else` clause after five timeouts, which only logs and returns
normally. -/
inductive SendResult where
  | sent
  | fatalError
  | exhausted
deriving DecidableEq, Repr

/-- The retry loop of lines 508-538, with `fuel` remaining attempts out of
`range(5)` and `attempt` the current attempt number fed to the oracle. -/
def sendAttempts (oracle : Nat → DeliveryOutcome) : Nat → Nat → SendResult
  | _, 0 => SendResult.exhausted
  | attempt, fuel + 1 =>
    match oracle attempt with
    | DeliveryOutcome.success => SendResult.sent
    | DeliveryOutcome.timedOut => sendAttempts oracle (attempt + 1) fuel
    | DeliveryOutcome.otherError => SendResult.fatalError

/-- `send_docx_to_telegram` (lines 502-538): up to five attempts, retrying
only on `telegram.error.TimedOut`. -/
def send_docx_to_telegram (oracle : Nat → DeliveryOutcome) : SendResult :=
  sendAttempts oracle 0 5

/-- Whether the run aborts after the Telegram send: only a re-raised
non-timeout exception propagates out of `send_docx_to_telegram` into `main`'s
top-level handler (which re-raises); `sent` and `exhausted` both return
normally and `main` continues. -/
def runAbortsAfterSend : SendResult → Bool
  | SendResult.fatalError => true
  | _ => false

/-- Page with a new-layout container holding one heading, one paragraph, one
2-item bulleted list and HTML category tag `Polity` — the scenario page of
the spec's C9 test. -/
def polityPage (h pText ulText b1 b2 : String) (img : Option String) : Page :=
  ⟨true, some h, img, some "Polity", [⟨"p", pText, [], false⟩, ⟨"ul", ulText, [b1, b2], false⟩]⟩

/-- Concrete instance of the C9 scenario page. -/
def c9page : Page := polityPage "H" "P" "L" "A" "B" none

/-- Blocks extracted from `c9page` under an always-failing translator. -/
def c9blocks : List ContentBlock :=
  (scrape_and_get_content (fun _ => none) (FetchResult.ok c9page)).1

/-- Minimal page whose extraction succeeds: main content and heading present,
no image, no category, no children. -/
def tinyPage : Page := ⟨true, some "T", none, none, []⟩

/-- Whether a block is a `heading` block. -/
def isHeadingBlock : ContentBlock → Bool
  | ContentBlock.heading _ _ => true
  | _ => false

/-- Number of blocks carrying an image reference. -/
def countImageRefs : List ContentBlock → Nat
  | [] => 0
  | ContentBlock.heading _ (some _) :: rest => countImageRefs rest + 1
  | _ :: rest => countImageRefs rest

/-- The `text` field of a block. -/
def blockText : ContentBlock → String
  | ContentBlock.heading t _ => t
  | ContentBlock.paragraph t => t
  | ContentBlock.heading_2 t => t
  | ContentBlock.heading_4 t => t
  | ContentBlock.bullet_list t => t
  | ContentBlock.numbered_list t _ => t

/-- A block list made of adjacent pairs whose two members carry the same
text (translated copy immediately followed by original copy). -/
inductive PairedTexts : List ContentBlock → Prop
  | nil : PairedTexts []
  | cons (a b : ContentBlock) (rest : List ContentBlock) :
      blockText a = blockText b → PairedTexts rest → PairedTexts (a :: b :: rest)

/-- The ordinals of the `numbered_list` blocks of a list, in order. -/
def ordinals : List ContentBlock → List Nat
  | [] => []
  | ContentBlock.numbered_list _ n :: rest => n :: ordinals rest
  | _ :: rest => ordinals rest

/-- `[start, start, start+1, start+1, ..., start+n-1, start+n-1]`: each
ordinal appears twice (translated and original copy), consecutive ordinals
differ by one. -/
def pairedRange (start : Nat) : Nat → List Nat
  | 0 => []
  | n + 1 => start :: start :: pairedRange (start + 1) n

/-- Number of ordered-list items the content loop actually processes: the
`li` count of every `ol` child that passes the loop's skip conditions. -/
def countOlItems : List ChildTag → Nat
  | [] => 0
  | t :: rest =>
    (if t.skipClass = false ∧ t.text ≠ "" ∧ categoryCapture t.text = none ∧
        t.name = "ol"
     then t.liTexts.length else 0) + countOlItems rest

/-- Number of ordered-list items an extraction processes. -/
def olCount : FetchResult → Nat
  | FetchResult.fetchError => 0
  | FetchResult.ok p =>
    if p.hasMainContent = false then 0
    else
      match p.headingText with
      | none => 0
      | some _ => countOlItems p.children

theorem length_nl : ("\n" : String).length = 1 := rfl

theorem length_nlnl : ("\n\n" : String).length = 2 := rfl

theorem length_bulletPrefix : ("• " : String).length = 2 := rfl

theorem blockStep_eq_length (b : ContentBlock) :
    blockStep b = (insertedText b).length := by
  cases b <;>
    simp [blockStep, insertedText, String.length_append, length_nl, length_nlnl,
      length_bulletPrefix]

theorem stepsSum_append (l1 l2 : List ContentBlock) :
    stepsSum (l1 ++ l2) = stepsSum l1 + stepsSum l2 := by
  induction l1 with
  | nil => simp [stepsSum]
  | cons b r ih => simp [stepsSum, ih, Nat.add_assoc]

theorem concatInserted_length (l : List ContentBlock) :
    (concatInserted l).length = stepsSum l := by
  induction l with
  | nil => simp [concatInserted, stepsSum, String.length]
  | cons b r ih =>
    simp [concatInserted, stepsSum, String.length_append, ih, blockStep_eq_length]

theorem buildBlocksIdx_append (idx : Nat) (l1 l2 : List ContentBlock) :
    buildBlocksIdx idx (l1 ++ l2) =
      ((buildBlocksIdx idx l1).1 ++ (buildBlocksIdx (idx + stepsSum l1) l2).1,
       (buildBlocksIdx (idx + stepsSum l1) l2).2) := by
  induction l1 generalizing idx with
  | nil => simp [buildBlocksIdx, stepsSum]
  | cons b r ih => simp [buildBlocksIdx, stepsSum, ih, Nat.add_assoc]

theorem blockRequests_ranges (p : Nat) (b : ContentBlock) :
    (blockRequests p b).head? =
        some (DocRequest.insertText p (insertedText b)) ∧
      (blockRequests p b).map reqRange =
        none :: List.replicate ((blockRequests p b).length - 1)
          (some (p, p + (insertedText b).length)) := by
  cases b <;>
    simp [blockRequests, reqRange, insertedText, String.length_append, length_nl,
      length_nlnl, length_bulletPrefix, List.replicate] <;>
    omega

/-- C1: for every content sequence fed to the remote incremental builder, the
requests for block `b` placed after prefix `pre` start with an `insertText`
at cursor `idx + stepsSum pre` — exactly where the previous insertion
(prefix and trailing newlines included) ended, since the cumulative step
equals the length of the concatenation of the texts actually inserted — every
style range attached to that block spans exactly the inserted text, and the
cursor advances by exactly the inserted length, so ranges neither overlap nor
gap. -/
theorem c1_offset_invariant (idx : Nat) (pre : List ContentBlock)
    (b : ContentBlock) (post : List ContentBlock) :
    (buildBlocksIdx idx (pre ++ b :: post)).1 =
        (buildBlocksIdx idx pre).1 ++ blockRequests (idx + stepsSum pre) b ++
          (buildBlocksIdx (idx + stepsSum pre + (insertedText b).length) post).1 ∧
      (blockRequests (idx + stepsSum pre) b).head? =
        some (DocRequest.insertText (idx + stepsSum pre) (insertedText b)) ∧
      (blockRequests (idx + stepsSum pre) b).map reqRange =
        none :: List.replicate ((blockRequests (idx + stepsSum pre) b).length - 1)
          (some (idx + stepsSum pre, idx + stepsSum pre + (insertedText b).length)) ∧
      stepsSum (pre ++ [b]) = stepsSum pre + (insertedText b).length ∧
      stepsSum pre = (concatInserted pre).length := by
  refine ⟨?_, (blockRequests_ranges _ b).1, (blockRequests_ranges _ b).2, ?_, ?_⟩
  · rw [buildBlocksIdx_append]
    simp [buildBlocksIdx, blockStep_eq_length, Nat.add_assoc]
  · simp [stepsSum_append, stepsSum, blockStep_eq_length]
  · exact (concatInserted_length pre).symm

theorem addToCat_nonempty (acc : List (String × List ContentBlock)) (c : String)
    (bs : List ContentBlock) (hacc : ∀ e ∈ acc, e.2 ≠ []) (hbs : bs ≠ []) :
    ∀ e ∈ addToCat acc c bs, e.2 ≠ [] := by
  induction acc with
  | nil =>
    intro e he
    simp [addToCat] at he
    simp [he, hbs]
  | cons kv rest ih =>
    intro e he
    rw [addToCat] at he
    by_cases hk : kv.1 = c
    · rw [if_pos hk] at he
      rcases List.mem_cons.mp he with rfl | hmem
      · have : kv.2 ≠ [] := hacc kv (List.mem_cons_self kv rest)
        simp [this]
      · exact hacc _ (List.mem_cons_of_mem _ hmem)
    · rw [if_neg hk] at he
      rcases List.mem_cons.mp he with rfl | hmem
      · exact hacc _ (List.mem_cons_self _ rest)
      · exact ih (fun x hx => hacc x (List.mem_cons_of_mem _ hx)) e hmem

theorem gatherCategoriesAux_nonempty
    (rs : List (List ContentBlock × Option String)) :
    ∀ acc, (∀ e ∈ acc, e.2 ≠ []) →
      ∀ e ∈ gatherCategoriesAux acc rs, e.2 ≠ [] := by
  induction rs with
  | nil => intro acc hacc e he; exact hacc e he
  | cons r rest ih =>
    intro acc hacc e he
    obtain ⟨blocks, cat⟩ := r
    simp only [gatherCategoriesAux] at he
    by_cases hb : blocks = []
    · rw [if_pos hb] at he
      exact ih acc hacc e he
    · rw [if_neg hb] at he
      cases cat with
      | none => exact ih acc hacc e he
      | some c =>
        have he2 : e ∈ (if c = "" then gatherCategoriesAux acc rest
            else gatherCategoriesAux (addToCat acc c blocks) rest) := he
        by_cases hce : c = ""
        · rw [if_pos hce] at he2
          exact ih acc hacc e he2
        · rw [if_neg hce] at he2
          exact ih _ (addToCat_nonempty acc c blocks hacc hb) e he2

/-- C2 (counterexample): invoked on an empty content sequence, the builder
still issues a document-creation call — the very first API call it makes is
`createDoc`. -/
theorem c2_counterexample :
    (append_to_google_doc "January 2025" "01 January 2025" "Polity" []).head? =
      some (ApiCall.createDoc "January 2025 - Polity") := rfl

/-- C2 (amended): the builder itself does not skip an empty content sequence
(it would still create the document, see the counterexample), but the
pipeline never hands it one: every per-category sequence accumulated by
`main` is non-empty, because a category is registered only together with a
non-empty extraction result. -/
theorem c2_no_empty_category (rs : List (List ContentBlock × Option String))
    (c : String) (bs : List ContentBlock) (h : (c, bs) ∈ gatherCategories rs) :
    bs ≠ [] :=
  gatherCategoriesAux_nonempty rs [] (by intro e he; cases he) (c, bs) h

theorem c2_no_empty_category_witness :
    (("Cat", [ContentBlock.paragraph "t", ContentBlock.paragraph "t"]) ∈
        gatherCategories
          [([ContentBlock.paragraph "t", ContentBlock.paragraph "t"], some "Cat")]) ∧
      ([ContentBlock.paragraph "t", ContentBlock.paragraph "t"] :
        List ContentBlock) ≠ [] :=
  ⟨by decide,
   c2_no_empty_category
     [([ContentBlock.paragraph "t", ContentBlock.paragraph "t"], some "Cat")]
     "Cat" [ContentBlock.paragraph "t", ContentBlock.paragraph "t"] (by decide)⟩

/-- C3: the extractor never lets a failure escape its boundary — a fetch
error, a missing main-content container, or a missing heading each yield
`([], none)` — and a failing URL leaves the processing of every other URL
untouched. -/
theorem c3_extractor_boundary (tr : String → Option String) (p : Page)
    (pages1 pages2 : List FetchResult) :
    scrape_and_get_content tr FetchResult.fetchError = ([], none) ∧
      (p.hasMainContent = false →
        scrape_and_get_content tr (FetchResult.ok p) = ([], none)) ∧
      (p.headingText = none →
        scrape_and_get_content tr (FetchResult.ok p) = ([], none)) ∧
      processUrls tr (pages1 ++ FetchResult.fetchError :: pages2) =
        processUrls tr pages1 ++ ([], none) :: processUrls tr pages2 := by
  refine ⟨rfl, ?_, ?_, ?_⟩
  · intro h
    simp [scrape_and_get_content, h]
  · intro h
    cases hm : p.hasMainContent <;> simp [scrape_and_get_content, h, hm]
  · simp [processUrls, scrape_and_get_content]

theorem c3_extractor_boundary_witness :
    ((⟨false, none, none, none, []⟩ : Page).hasMainContent = false) ∧
      scrape_and_get_content (fun _ => none)
        (FetchResult.ok ⟨false, none, none, none, []⟩) = ([], none) :=
  ⟨rfl,
   (c3_extractor_boundary (fun _ => none) ⟨false, none, none, none, []⟩ [] []).2.1 rfl⟩

theorem ulItems_no_heading (tr : String → Option String) (lis : List String) :
    ∀ b ∈ ulItems tr lis, isHeadingBlock b = false := by
  induction lis with
  | nil => intro b hb; cases hb
  | cons li rest ih =>
    intro b hb
    rcases List.mem_cons.mp hb with rfl | hb2
    · rfl
    rcases List.mem_cons.mp hb2 with rfl | hb3
    · rfl
    · exact ih b hb3

theorem olItems_no_heading (tr : String → Option String) (lis : List String) :
    ∀ c, ∀ b ∈ (olItems tr c lis).1, isHeadingBlock b = false := by
  induction lis with
  | nil => intro c b hb; cases hb
  | cons li rest ih =>
    intro c b hb
    rcases List.mem_cons.mp hb with rfl | hb2
    · rfl
    rcases List.mem_cons.mp hb2 with rfl | hb3
    · rfl
    · exact ih (c + 1) b hb3

theorem processTags_no_heading (tr : String → Option String) (tags : List ChildTag) :
    ∀ c, ∀ b ∈ processTags tr tags c, isHeadingBlock b = false := by
  induction tags with
  | nil => intro c b hb; cases hb
  | cons t rest ih =>
    intro c b hb
    simp only [processTags] at hb
    split_ifs at hb with h1 h2 h3 h4 h5 h6 h7 h8
    · exact ih c b hb
    · exact ih c b hb
    · exact ih c b hb
    · rcases List.mem_cons.mp hb with rfl | hb2
      · rfl
      rcases List.mem_cons.mp hb2 with rfl | hb3
      · rfl
      · exact ih c b hb3
    · rcases List.mem_cons.mp hb with rfl | hb2
      · rfl
      rcases List.mem_cons.mp hb2 with rfl | hb3
      · rfl
      · exact ih c b hb3
    · rcases List.mem_cons.mp hb with rfl | hb2
      · rfl
      rcases List.mem_cons.mp hb2 with rfl | hb3
      · rfl
      · exact ih c b hb3
    · rcases List.mem_append.mp hb with hu | hr
      · exact ulItems_no_heading tr t.liTexts b hu
      · exact ih c b hr
    · rcases List.mem_append.mp hb with ho | hr
      · exact olItems_no_heading tr t.liTexts c b ho
      · exact ih _ b hr
    · exact ih c b hb

theorem countImageRefs_eq_zero :
    ∀ l : List ContentBlock, (∀ b ∈ l, isHeadingBlock b = false) →
      countImageRefs l = 0
  | [], _ => rfl
  | b :: rest, h => by
    have hb := h b (List.mem_cons_self b rest)
    have hr := countImageRefs_eq_zero rest (fun x hx => h x (List.mem_cons_of_mem _ hx))
    cases b with
    | heading t img => simp [isHeadingBlock] at hb
    | paragraph t => simpa [countImageRefs] using hr
    | heading_2 t => simpa [countImageRefs] using hr
    | heading_4 t => simpa [countImageRefs] using hr
    | bullet_list t => simpa [countImageRefs] using hr
    | numbered_list t n => simpa [countImageRefs] using hr

/-- C4: whenever extraction succeeds (non-empty result), the block sequence
begins with exactly two `heading` blocks — the translated heading, carrying
the page's featured-image reference, immediately followed by the original
heading without one — no later block is a heading, and at most one block of
the whole article carries an image reference. -/
theorem c4_two_headings (tr : String → Option String) (pr : FetchResult)
    (hne : (scrape_and_get_content tr pr).1 ≠ []) :
    ∃ ht img rest,
      (scrape_and_get_content tr pr).1 =
          ContentBlock.heading (translate_to_gujarati tr ht) img ::
            ContentBlock.heading ht none :: rest ∧
        (∀ b ∈ rest, isHeadingBlock b = false) ∧
        countImageRefs (scrape_and_get_content tr pr).1 ≤ 1 := by
  cases pr with
  | fetchError => simp [scrape_and_get_content] at hne
  | ok p =>
    cases hm : p.hasMainContent with
    | false => simp [scrape_and_get_content, hm] at hne
    | true =>
      cases hh : p.headingText with
      | none => simp [scrape_and_get_content, hm, hh] at hne
      | some ht =>
        refine ⟨ht, p.imageUrl, processTags tr p.children 1, ?_, ?_, ?_⟩
        · simp [scrape_and_get_content, hm, hh]
        · exact fun b hb => processTags_no_heading tr p.children 1 b hb
        · have h0 := countImageRefs_eq_zero (processTags tr p.children 1)
            (fun b hb => processTags_no_heading tr p.children 1 b hb)
          cases himg : p.imageUrl with
          | none => simp [scrape_and_get_content, hm, hh, himg, countImageRefs, h0]
          | some i => simp [scrape_and_get_content, hm, hh, himg, countImageRefs, h0]

theorem c4_two_headings_witness :
    (scrape_and_get_content (fun _ => none) (FetchResult.ok tinyPage)).1 ≠ [] ∧
      (∃ ht img rest,
        (scrape_and_get_content (fun _ => none) (FetchResult.ok tinyPage)).1 =
            ContentBlock.heading (translate_to_gujarati (fun _ => none) ht) img ::
              ContentBlock.heading ht none :: rest ∧
          (∀ b ∈ rest, isHeadingBlock b = false) ∧
          countImageRefs
            (scrape_and_get_content (fun _ => none) (FetchResult.ok tinyPage)).1 ≤ 1) :=
  ⟨by decide, c4_two_headings (fun _ => none) (FetchResult.ok tinyPage) (by decide)⟩

theorem ordinals_append (l1 l2 : List ContentBlock) :
    ordinals (l1 ++ l2) = ordinals l1 ++ ordinals l2 := by
  induction l1 with
  | nil => rfl
  | cons b rest ih => cases b <;> simp [ordinals, ih]

theorem ulItems_ordinals (tr : String → Option String) (lis : List String) :
    ordinals (ulItems tr lis) = [] := by
  induction lis with
  | nil => rfl
  | cons li rest ih => simp [ulItems, ordinals, ih]

theorem olItems_ordinals (tr : String → Option String) (lis : List String) :
    ∀ c, ordinals (olItems tr c lis).1 = pairedRange c lis.length ∧
      (olItems tr c lis).2 = c + lis.length := by
  induction lis with
  | nil => intro c; simp [olItems, ordinals, pairedRange]
  | cons li rest ih =>
    intro c
    have h := ih (c + 1)
    constructor
    · simp [olItems, ordinals, pairedRange, h.1, List.length_cons]
    · simp [olItems, h.2, List.length_cons]
      omega

theorem pairedRange_append (m : Nat) :
    ∀ c n, pairedRange c (n + m) = pairedRange c n ++ pairedRange (c + n) m := by
  intro c n
  induction n generalizing c with
  | zero => simp [pairedRange]
  | succ k ih =>
    have : k + 1 + m = (k + m) + 1 := by omega
    rw [this]
    simp [pairedRange, ih (c + 1)]
    have : c + 1 + k = c + (k + 1) := by omega
    rw [this]

theorem processTags_ordinals (tr : String → Option String) (tags : List ChildTag) :
    ∀ c, ordinals (processTags tr tags c) = pairedRange c (countOlItems tags) := by
  induction tags with
  | nil => intro c; simp [processTags, countOlItems, ordinals, pairedRange]
  | cons t rest ih =>
    intro c
    cases hsk : t.skipClass with
    | true => simp [processTags, countOlItems, hsk, ih c]
    | false =>
      by_cases htx : t.text = ""
      · simp [processTags, countOlItems, hsk, htx, ih c]
      · cases hcap : categoryCapture t.text with
        | some v => simp [processTags, countOlItems, hsk, htx, hcap, ih c]
        | none =>
          by_cases hp : t.name = "p"
          · simp [processTags, countOlItems, hsk, htx, hcap, hp, ordinals, ih c]
          · by_cases hh2 : t.name = "h2"
            · simp [processTags, countOlItems, hsk, htx, hcap, hp, hh2, ordinals, ih c]
            · by_cases hh4 : t.name = "h4"
              · simp [processTags, countOlItems, hsk, htx, hcap, hp, hh2, hh4,
                  ordinals, ih c]
              · by_cases hul : t.name = "ul"
                · simp [processTags, countOlItems, hsk, htx, hcap, hp, hh2, hh4, hul,
                    ordinals_append, ulItems_ordinals, ih c]
                · by_cases hol : t.name = "ol"
                  · have ho := olItems_ordinals tr t.liTexts c
                    have hcond : t.skipClass = false ∧ t.text ≠ "" ∧
                        categoryCapture t.text = none ∧ t.name = "ol" :=
                      ⟨hsk, htx, hcap, hol⟩
                    simp only [processTags, countOlItems]
                    rw [if_neg (by simp [hsk]), if_neg htx, if_neg (by simp [hcap]),
                      if_neg hp, if_neg hh2, if_neg hh4, if_neg hul, if_pos hol,
                      if_pos hcond]
                    rw [ordinals_append, ho.1, ho.2, ih (c + t.liTexts.length)]
                    exact (pairedRange_append (countOlItems rest) c t.liTexts.length).symm
                  · simp [processTags, countOlItems, hsk, htx, hcap, hp, hh2, hh4, hul,
                      hol, ih c]

/-- C5: the ordinals of the `numbered_list` blocks an extraction produces are
exactly `1, 1, 2, 2, ..., n, n` — starting at 1, incremented once per
ordered-list item across all ordered lists of the article, shared by the
translated and the original copy of each item — and every extraction starts
its counter afresh at 1 (the reset per article). -/
theorem c5_numbering (tr : String → Option String) (pr : FetchResult) :
    ordinals (scrape_and_get_content tr pr).1 = pairedRange 1 (olCount pr) := by
  cases pr with
  | fetchError => rfl
  | ok p =>
    cases hm : p.hasMainContent with
    | false => simp [scrape_and_get_content, olCount, hm, ordinals, pairedRange]
    | true =>
      cases hh : p.headingText with
      | none => simp [scrape_and_get_content, olCount, hm, hh, ordinals, pairedRange]
      | some ht =>
        simp [scrape_and_get_content, olCount, hm, hh, ordinals,
          processTags_ordinals tr p.children 1]

theorem translate_fail (t : String) : translate_to_gujarati (fun _ => none) t = t := rfl

theorem pairedTexts_ulItems (lis : List String) (l : List ContentBlock)
    (h : PairedTexts l) : PairedTexts (ulItems (fun _ => none) lis ++ l) := by
  induction lis with
  | nil => exact h
  | cons li rest ih => exact PairedTexts.cons _ _ _ rfl ih

theorem pairedTexts_olItems (lis : List String) :
    ∀ c, ∀ l, PairedTexts l → PairedTexts ((olItems (fun _ => none) c lis).1 ++ l) := by
  induction lis with
  | nil => intro c l h; exact h
  | cons li rest ih => intro c l h; exact PairedTexts.cons _ _ _ rfl (ih (c + 1) l h)

theorem pairedTexts_processTags (tags : List ChildTag) :
    ∀ c, PairedTexts (processTags (fun _ => none) tags c) := by
  induction tags with
  | nil => intro c; exact PairedTexts.nil
  | cons t rest ih =>
    intro c
    cases hsk : t.skipClass with
    | true => simpa [processTags, hsk] using ih c
    | false =>
      by_cases htx : t.text = ""
      · simpa [processTags, hsk, htx] using ih c
      · cases hcap : categoryCapture t.text with
        | some v => simpa [processTags, hsk, htx, hcap] using ih c
        | none =>
          by_cases hp : t.name = "p"
          · have := PairedTexts.cons
              (ContentBlock.paragraph (translate_to_gujarati (fun _ => none) t.text))
              (ContentBlock.paragraph t.text) _ (translate_fail t.text) (ih c)
            simpa [processTags, hsk, htx, hcap, hp] using this
          · by_cases hh2 : t.name = "h2"
            · have := PairedTexts.cons
                (ContentBlock.heading_2 (translate_to_gujarati (fun _ => none) t.text))
                (ContentBlock.heading_2 t.text) _ (translate_fail t.text) (ih c)
              simpa [processTags, hsk, htx, hcap, hp, hh2] using this
            · by_cases hh4 : t.name = "h4"
              · have := PairedTexts.cons
                  (ContentBlock.heading_4 (translate_to_gujarati (fun _ => none) t.text))
                  (ContentBlock.heading_4 t.text) _ (translate_fail t.text) (ih c)
                simpa [processTags, hsk, htx, hcap, hp, hh2, hh4] using this
              · by_cases hul : t.name = "ul"
                · have := pairedTexts_ulItems t.liTexts _ (ih c)
                  simpa [processTags, hsk, htx, hcap, hp, hh2, hh4, hul] using this
                · by_cases hol : t.name = "ol"
                  · have := pairedTexts_olItems t.liTexts c _
                      (ih (olItems (fun _ => none) c t.liTexts).2)
                    simpa [processTags, hsk, htx, hcap, hp, hh2, hh4, hul, hol] using this
                  · simpa [processTags, hsk, htx, hcap, hp, hh2, hh4, hul, hol] using ih c

theorem pairedTexts_scrape (pr : FetchResult) :
    PairedTexts (scrape_and_get_content (fun _ => none) pr).1 := by
  cases pr with
  | fetchError => exact PairedTexts.nil
  | ok p =>
    cases hm : p.hasMainContent with
    | false => simp [scrape_and_get_content, hm]; exact PairedTexts.nil
    | true =>
      cases hh : p.headingText with
      | none => simp [scrape_and_get_content, hm, hh]; exact PairedTexts.nil
      | some ht =>
        have := PairedTexts.cons
          (ContentBlock.heading (translate_to_gujarati (fun _ => none) ht) p.imageUrl)
          (ContentBlock.heading ht none) _ rfl
          (pairedTexts_processTags p.children 1)
        simpa [scrape_and_get_content, hm, hh] using this

/-- C6: under a translation capability that fails on every call, every block
the pipeline extracts comes in an adjacent translated/original pair with
textually identical copies, for every URL processed — and since the extractor
is a total function, no URL's processing aborts on translation failure. -/
theorem c6_degraded_translation (pages : List FetchResult) :
    ∀ r ∈ processUrls (fun _ => none) pages, PairedTexts r.1 := by
  intro r hr
  rcases List.mem_map.mp hr with ⟨pr, _, rfl⟩
  exact pairedTexts_scrape pr

theorem c6_degraded_translation_witness :
    scrape_and_get_content (fun _ => none) (FetchResult.ok tinyPage) ∈
        processUrls (fun _ => none) [FetchResult.ok tinyPage] ∧
      PairedTexts (scrape_and_get_content (fun _ => none) (FetchResult.ok tinyPage)).1 :=
  ⟨by simp [processUrls],
   c6_degraded_translation [FetchResult.ok tinyPage] _ (by simp [processUrls])⟩

/-- C7 (counterexample): with a delivery channel that times out on every
attempt, the retry loop exhausts its five attempts and returns normally via
the `for`/`else` logging path — the run continues instead of aborting. -/
theorem c7_counterexample :
    send_docx_to_telegram (fun _ => DeliveryOutcome.timedOut) = SendResult.exhausted ∧
      runAbortsAfterSend SendResult.exhausted = false := by
  constructor
  · rfl
  · rfl

/-- C7 (amended): delivery timeouts are retried a bounded number of times (up
to five attempts); a non-timeout delivery error on any attempt is fatal
immediately (the exception is re-raised and aborts the run); but when all
five attempts time out, the failure is only logged and the run continues —
exhausted retries are not fatal. -/
theorem c7_delivery_retries (oracle : Nat → DeliveryOutcome) :
    ((∀ k, k < 5 → oracle k = DeliveryOutcome.timedOut) →
        send_docx_to_telegram oracle = SendResult.exhausted ∧
          runAbortsAfterSend (send_docx_to_telegram oracle) = false) ∧
      (∀ k, k < 5 → (∀ j, j < k → oracle j = DeliveryOutcome.timedOut) →
          oracle k = DeliveryOutcome.otherError →
          send_docx_to_telegram oracle = SendResult.fatalError ∧
            runAbortsAfterSend (send_docx_to_telegram oracle) = true) ∧
      (∀ k, k < 5 → (∀ j, j < k → oracle j = DeliveryOutcome.timedOut) →
          oracle k = DeliveryOutcome.success →
          send_docx_to_telegram oracle = SendResult.sent) := by
  refine ⟨?_, ?_, ?_⟩
  · intro h
    have e : send_docx_to_telegram oracle = SendResult.exhausted := by
      simp [send_docx_to_telegram, sendAttempts, h 0 (by omega), h 1 (by omega),
        h 2 (by omega), h 3 (by omega), h 4 (by omega)]
    exact ⟨e, by rw [e]; rfl⟩
  · intro k hk hpre hko
    have e : send_docx_to_telegram oracle = SendResult.fatalError := by
      interval_cases k
      · simp [send_docx_to_telegram, sendAttempts, hko]
      · simp [send_docx_to_telegram, sendAttempts, hko, hpre 0 (by omega)]
      · simp [send_docx_to_telegram, sendAttempts, hko, hpre 0 (by omega),
          hpre 1 (by omega)]
      · simp [send_docx_to_telegram, sendAttempts, hko, hpre 0 (by omega),
          hpre 1 (by omega), hpre 2 (by omega)]
      · simp [send_docx_to_telegram, sendAttempts, hko, hpre 0 (by omega),
          hpre 1 (by omega), hpre 2 (by omega), hpre 3 (by omega)]
    exact ⟨e, by rw [e]; rfl⟩
  · intro k hk hpre hko
    interval_cases k
    · simp [send_docx_to_telegram, sendAttempts, hko]
    · simp [send_docx_to_telegram, sendAttempts, hko, hpre 0 (by omega)]
    · simp [send_docx_to_telegram, sendAttempts, hko, hpre 0 (by omega),
        hpre 1 (by omega)]
    · simp [send_docx_to_telegram, sendAttempts, hko, hpre 0 (by omega),
        hpre 1 (by omega), hpre 2 (by omega)]
    · simp [send_docx_to_telegram, sendAttempts, hko, hpre 0 (by omega),
        hpre 1 (by omega), hpre 2 (by omega), hpre 3 (by omega)]

theorem c7_delivery_retries_witness :
    (∀ k, k < 5 → (fun _ => DeliveryOutcome.timedOut) k = DeliveryOutcome.timedOut) ∧
      send_docx_to_telegram (fun _ => DeliveryOutcome.timedOut) = SendResult.exhausted ∧
        runAbortsAfterSend
          (send_docx_to_telegram (fun _ => DeliveryOutcome.timedOut)) = false :=
  ⟨fun _ _ => rfl,
   (c7_delivery_retries (fun _ => DeliveryOutcome.timedOut)).1 (fun _ _ => rfl)⟩

/-- C8 (counterexample): with ledger connectivity down, the dedup step on one
ordinary URL raises (the unguarded `collection.find_one` call), rather than
returning the URL as new. -/
theorem c8_counterexample :
    check_and_insert_urls false [] ["https://www.gktoday.in/article-one/"] =
        Except.error () ∧
      check_and_insert_urls false [] ["https://www.gktoday.in/article-one/"] ≠
        Except.ok (["https://www.gktoday.in/article-one/"],
          ["https://www.gktoday.in/article-one/"]) := by
  exact ⟨rfl, fun hctr => Except.noConfusion hctr⟩

/-- C8 (amended): when connectivity to the dedup ledger fails, the
check-and-insert step does not degrade to treating all URLs as new — the
failure propagates (and `main` re-raises it, aborting the run) as soon as any
URL actually reaches the ledger, i.e. whenever at least one input URL is not
filtered out by the quiz-marker check. -/
theorem c8_ledger_failure (seen urls : List String)
    (h : ∃ u ∈ urls, hasSubstr u quizMarker = false) :
    check_and_insert_urls false seen urls = Except.error () := by
  induction urls generalizing seen with
  | nil => rcases h with ⟨u, hu, _⟩; cases hu
  | cons url rest ih =>
    cases hqz : hasSubstr url quizMarker with
    | true =>
      have hnext : ∃ u ∈ rest, hasSubstr u quizMarker = false := by
        rcases h with ⟨u, hu, hq⟩
        rcases List.mem_cons.mp hu with rfl | hmem
        · rw [hq] at hqz; cases hqz
        · exact ⟨u, hmem, hq⟩
      simpa [check_and_insert_urls, hqz] using ih seen hnext
    | false => simp [check_and_insert_urls, hqz]

theorem c8_ledger_failure_witness :
    (∃ u ∈ ["https://www.gktoday.in/article-one/"],
        hasSubstr u quizMarker = false) ∧
      check_and_insert_urls false [] ["https://www.gktoday.in/article-one/"] =
        Except.error () :=
  ⟨⟨"https://www.gktoday.in/article-one/", by simp, by decide⟩,
   c8_ledger_failure [] ["https://www.gktoday.in/article-one/"]
     ⟨"https://www.gktoday.in/article-one/", by simp, by decide⟩⟩

/-- C10: on a successful run of the dedup step, no returned URL contains the
quiz marker, nothing newly inserted into the ledger contains it (everything
in the final ledger was already there or is a non-quiz input URL), the
returned URLs are a subsequence of the input (original order preserved), and
every non-quiz input URL not already in the ledger is returned as new. -/
theorem c10_quiz_filter (seen urls new seen2 : List String)
    (h : check_and_insert_urls true seen urls = Except.ok (new, seen2)) :
    (∀ u ∈ new, hasSubstr u quizMarker = false) ∧
      (∀ u ∈ seen2, u ∈ seen ∨ (u ∈ urls ∧ hasSubstr u quizMarker = false)) ∧
      List.Sublist new urls ∧
      (∀ u ∈ urls, hasSubstr u quizMarker = false → u ∉ seen → u ∈ new) := by
  induction urls generalizing seen new seen2 with
  | nil =>
    simp [check_and_insert_urls] at h
    obtain ⟨rfl, rfl⟩ := h
    exact ⟨by simp, fun u hu => Or.inl hu, List.Sublist.refl [], by simp⟩
  | cons url rest ih =>
    cases hqz : hasSubstr url quizMarker with
    | true =>
      rw [check_and_insert_urls] at h
      rw [if_pos hqz] at h
      obtain ⟨h1, h2, h3, h4⟩ := ih seen new seen2 h
      refine ⟨h1, ?_, h3.cons url, ?_⟩
      · intro u hu
        rcases h2 u hu with hs | ⟨hm, hq⟩
        · exact Or.inl hs
        · exact Or.inr ⟨List.mem_cons_of_mem _ hm, hq⟩
      · intro u hu hq hns
        rcases List.mem_cons.mp hu with rfl | hmem
        · rw [hq] at hqz; cases hqz
        · exact h4 u hmem hq hns
    | false =>
      rw [check_and_insert_urls] at h
      rw [if_neg (by simp [hqz])] at h
      rw [if_neg (by simp)] at h
      by_cases hseen : url ∈ seen
      · rw [if_pos hseen] at h
        obtain ⟨h1, h2, h3, h4⟩ := ih seen new seen2 h
        refine ⟨h1, ?_, h3.cons url, ?_⟩
        · intro u hu
          rcases h2 u hu with hs | ⟨hm, hq⟩
          · exact Or.inl hs
          · exact Or.inr ⟨List.mem_cons_of_mem _ hm, hq⟩
        · intro u hu hq hns
          rcases List.mem_cons.mp hu with rfl | hmem
          · exact absurd hseen hns
          · exact h4 u hmem hq hns
      · rw [if_neg hseen] at h
        cases hrec : check_and_insert_urls true (seen ++ [url]) rest with
        | error e => rw [hrec] at h; cases h
        | ok p =>
          obtain ⟨n, s2⟩ := p
          rw [hrec] at h
          injection h with h
          injection h with hnew hseen2
          subst hnew
          subst hseen2
          obtain ⟨h1, h2, h3, h4⟩ := ih (seen ++ [url]) n s2 hrec
          refine ⟨?_, ?_, h3.cons₂ url, ?_⟩
          · intro u hu
            rcases List.mem_cons.mp hu with rfl | hmem
            · exact hqz
            · exact h1 u hmem
          · intro u hu
            rcases h2 u hu with hs | ⟨hm, hq⟩
            · rcases List.mem_append.mp hs with hs1 | hs2
              · exact Or.inl hs1
              · have : u = url := by simpa using hs2
                subst this
                exact Or.inr ⟨List.mem_cons_self _ _, hqz⟩
            · exact Or.inr ⟨List.mem_cons_of_mem _ hm, hq⟩
          · intro u hu hq hns
            rcases List.mem_cons.mp hu with rfl | hmem
            · exact List.mem_cons_self _ _
            · by_cases hequ : u = url
              · subst hequ; exact List.mem_cons_self _ _
              · have hns2 : u ∉ seen ++ [url] := by
                  intro hctr
                  rcases List.mem_append.mp hctr with hc1 | hc2
                  · exact hns hc1
                  · exact hequ (by simpa using hc2)
                exact List.mem_cons_of_mem _ (h4 u hmem hq hns2)

theorem c10_quiz_filter_witness :
    check_and_insert_urls true ["b"] ["a", "x-daily-current-affairs-quiz", "b"] =
        Except.ok (["a"], ["b", "a"]) ∧
      ((∀ u ∈ ["a"], hasSubstr u quizMarker = false) ∧
        (∀ u ∈ ["b", "a"], u ∈ ["b"] ∨
          (u ∈ ["a", "x-daily-current-affairs-quiz", "b"] ∧
            hasSubstr u quizMarker = false)) ∧
        List.Sublist ["a"] ["a", "x-daily-current-affairs-quiz", "b"] ∧
        (∀ u ∈ ["a", "x-daily-current-affairs-quiz", "b"],
          hasSubstr u quizMarker = false → u ∉ ["b"] → u ∈ ["a"])) :=
  ⟨rfl,
   c10_quiz_filter ["b"] ["a", "x-daily-current-affairs-quiz", "b"] ["a"] ["b", "a"]
     rfl⟩

theorem string_append_assoc (a b c : String) : (a ++ b) ++ c = a ++ (b ++ c) := by
  apply String.ext
  simp [String.data_append]

/-- C9 (counterexample): on the scenario page (one heading, one paragraph,
one 2-item bulleted list, category tag Polity), extraction yields 8 content
blocks, the builder issues 8 content-block inserts (not 6) and 9
`updateTextStyle` operations (not 8), along with 4 list-format operations. -/
theorem c9_counterexample :
    c9blocks.length = 8 ∧
      countInserts ((buildBlocksIdx (1 + ((titleLine "01 January 2025").length + 1) + 51)
        c9blocks).1) = 8 ∧
      (8 : Nat) ≠ 6 ∧
      countStyleOps (appendRequests "01 January 2025" c9blocks) = 9 ∧
      (9 : Nat) ≠ 8 := by
  refine ⟨by decide, by decide, by decide, by decide, by decide⟩

/-- C9 (amended): for an article with one heading, one paragraph and one
2-item bulleted list under category tag Polity, extraction returns category
`Polity` and 8 content blocks (each element duplicated across the two
languages), and the builder creates exactly one remote document titled
month/year plus ` - Polity` whose batched operation list holds 11 inserts
(title, one separator, 8 content-block inserts, one trailing separator),
9 `updateTextStyle` operations (title plus one per content block) and 4
list-format operations (one per bullet block). -/
theorem c9_polity_scenario (tr : String → Option String)
    (monthYear day h pText ulText b1 b2 : String) (img : Option String)
    (hp1 : pText ≠ "") (hp2 : categoryCapture pText = none)
    (hu1 : ulText ≠ "") (hu2 : categoryCapture ulText = none) :
    (scrape_and_get_content tr (FetchResult.ok (polityPage h pText ulText b1 b2 img))).2 =
        some "Polity" ∧
      (scrape_and_get_content tr
          (FetchResult.ok (polityPage h pText ulText b1 b2 img))).1.length = 8 ∧
      append_to_google_doc monthYear day "Polity"
          (scrape_and_get_content tr
            (FetchResult.ok (polityPage h pText ulText b1 b2 img))).1 =
        [ApiCall.createDoc (monthYear ++ " - Polity"),
         ApiCall.batchUpdate (appendRequests day
           (scrape_and_get_content tr
             (FetchResult.ok (polityPage h pText ulText b1 b2 img))).1)] ∧
      countInserts (appendRequests day
        (scrape_and_get_content tr
          (FetchResult.ok (polityPage h pText ulText b1 b2 img))).1) = 11 ∧
      countStyleOps (appendRequests day
        (scrape_and_get_content tr
          (FetchResult.ok (polityPage h pText ulText b1 b2 img))).1) = 9 ∧
      countBulletOps (appendRequests day
        (scrape_and_get_content tr
          (FetchResult.ok (polityPage h pText ulText b1 b2 img))).1) = 4 := by
  have hb : (scrape_and_get_content tr
      (FetchResult.ok (polityPage h pText ulText b1 b2 img))).1 =
      [ContentBlock.heading (translate_to_gujarati tr h) img,
       ContentBlock.heading h none,
       ContentBlock.paragraph (translate_to_gujarati tr pText),
       ContentBlock.paragraph pText,
       ContentBlock.bullet_list (translate_to_gujarati tr b1),
       ContentBlock.bullet_list b1,
       ContentBlock.bullet_list (translate_to_gujarati tr b2),
       ContentBlock.bullet_list b2] := by
    simp [scrape_and_get_content, polityPage, processTags, hp1, hp2, hu1, hu2, ulItems]
  refine ⟨?_, ?_, ?_, ?_, ?_, ?_⟩
  · simp [scrape_and_get_content, polityPage]
  · rw [hb]
    rfl
  · rw [hb]
    simp [append_to_google_doc, appendRequests, string_append_assoc]
  · rw [hb]
    simp [appendRequests, buildBlocksIdx, blockRequests, countInserts]
  · rw [hb]
    simp [appendRequests, buildBlocksIdx, blockRequests, countStyleOps]
  · rw [hb]
    simp [appendRequests, buildBlocksIdx, blockRequests, countBulletOps]

theorem c9_polity_scenario_witness :
    (("P" : String) ≠ "" ∧ categoryCapture "P" = none ∧
        ("L" : String) ≠ "" ∧ categoryCapture "L" = none) ∧
      (scrape_and_get_content (fun _ => none)
          (FetchResult.ok (polityPage "H" "P" "L" "A" "B" none))).2 = some "Polity" ∧
        (scrape_and_get_content (fun _ => none)
          (FetchResult.ok (polityPage "H" "P" "L" "A" "B" none))).1.length = 8 :=
  ⟨⟨by decide, by decide, by decide, by decide⟩,
   ((c9_polity_scenario (fun _ => none) "January 2025" "01 January 2025"
       "H" "P" "L" "A" "B" none (by decide) (by decide) (by decide) (by decide)).1),
   ((c9_polity_scenario (fun _ => none) "January 2025" "01 January 2025"
       "H" "P" "L" "A" "B" none (by decide) (by decide) (by decide) (by decide)).2.1)⟩

end Pipeline
